import Mathlib

/-
  Verification development for the service-dispatch core of the platform
  engine (asyncy/processing/Services.py).

  The Python dispatch core is shallowly embedded: dict-shaped configuration
  values become the `Val` tree, lines and stories become structures holding
  exactly the fields the core reads, asynchronous collaborator calls
  (container manager, HTTP client, subscription broker) become explicit
  inputs or trace entries, and exceptions become `Except` errors carrying a
  structured kind plus the story/line context that the raising site passed.
  Unbounded `while True` loops are given explicit fuel; every claim about a
  successful resolution is conditioned on the loop having terminated.
-/

set_option maxRecDepth 4000

namespace Asyncy

/-- A Python value as the dispatch core observes it: configuration nodes,
argument values and request bodies are all dict/list/scalar shaped. -/
inductive Val where
  | null
  | bool (b : Bool)
  | num (n : Nat)
  | str (s : String)
  | list (xs : List Val)
  | obj (fields : List (String × Val))
deriving Repr

/-- First-match association lookup, the semantics of indexing a Python dict
whose keys are unique. -/
def lookupVal : List (String × Val) → String → Option Val
  | [], _ => none
  | (k, v) :: rest, key => if k == key then some v else lookupVal rest key

/-- `d.get(key) is not None`-style lookup: a key that is missing or bound to
`None` both count as absent. -/
def lookupNN (fields : List (String × Val)) (key : String) : Option Val :=
  match lookupVal fields key with
  | some .null => none
  | some v => some v
  | none => none

/-- Python truthiness of a value, as used by `next or {}` and
`if ...get('use_event_conn', False):`. -/
def Val.truthy : Val → Bool
  | .null => false
  | .bool b => b
  | .num n => n != 0
  | .str s => s != ""
  | .list xs => xs.length != 0
  | .obj fields => fields.length != 0

/-- Equality test of a value against a string literal, the semantics of
`location == 'query'` for an arbitrarily-typed `location`. -/
def Val.isStr (v : Val) (s : String) : Bool :=
  match v with
  | .str t => t == s
  | _ => false

/-- Rendering of a value inside an f-string (`str()` conversion). Composite
values never occur in the URLs the core builds, so their rendering is kept
abstract. -/
def Val.pyStr : Val → String
  | .null => "None"
  | .bool b => if b then "True" else "False"
  | .num n => toString n
  | .str s => s
  | .list _ => "<list>"
  | .obj _ => "<dict>"

/-- Python `str.upper()` (ASCII, as used on HTTP method names). -/
def py_upper (s : String) : String := String.mk (s.data.map Char.toUpper)

/-- Python `str.lower()` (ASCII, as used on HTTP method names). -/
def py_lower (s : String) : String := String.mk (s.data.map Char.toLower)

/-- Whether the first list is a prefix of the second. -/
def starts_with_chars : List Char → List Char → Bool
  | [], _ => true
  | _ :: _, [] => false
  | a :: as, b :: bs => a == b && starts_with_chars as bs

/-- Whether the needle occurs inside the haystack. -/
def chars_substr (needle : List Char) : List Char → Bool
  | [] => starts_with_chars needle []
  | b :: bs => starts_with_chars needle (b :: bs) || chars_substr needle bs

/-- Python `sub in s` on strings. -/
def py_contains (s sub : String) : Bool := chars_substr sub.data s.data

/-- Join strings with a separator. -/
def join_sep (sep : String) : List String → String
  | [] => ""
  | x :: rest => rest.foldl (fun acc y => acc ++ sep ++ y) x

/-- One story line, holding exactly the keys the dispatch core reads. -/
structure Line where
  service : String
  command : String
  method : String
  parent : Option String := none
  output : Option (List String) := none
  ln : String := ""
deriving DecidableEq, Repr

/-- Engine configuration keys the dispatch core consumes. -/
structure AppConfig where
  ENGINE_HOST : String := ""
  ENGINE_PORT : Nat := 0
  ASYNCY_HTTP_GW_HOST : String := ""
  ASYNCY_SYNAPSE_HOST : String := ""
  ASYNCY_SYNAPSE_PORT : Nat := 0
deriving DecidableEq, Repr

/-- The application record: `services` is the service-configuration dict. -/
structure App where
  services : List (String × Val)
  config : AppConfig := {}
  app_id : String := ""
  app_dns : String := ""

/-- A story: the line tree, the owning application, and the argument
resolver `argument_by_name` (an external collaborator, modelled as a pure
function of the line and the argument name). -/
structure Story where
  tree : List (String × Line)
  app : App
  name : String := ""
  argument_by_name : Line → String → Val

/-- `story.line(id)`. -/
def Story.lineAt (story : Story) (id : String) : Option Line :=
  story.tree.lookup id

/-- A live streaming-service handle `(name, command, container_name,
hostname)`. -/
structure StreamingService where
  name : String
  command : String
  container_name : String
  hostname : String
deriving DecidableEq, Repr

/-- A registered internal command: its declared argument names (the handler
itself is an opaque callable, so only its identity matters here). -/
structure InternalCommand where
  arguments : List String
deriving Repr

/-- A registered internal service: its command table. -/
structure InternalService where
  commands : List (String × InternalCommand)
deriving Repr

/-- The process-wide internal service registry (`Services.internal_services`). -/
abbrev Registry := List (String × InternalService)

namespace Services

/-- `Services.is_internal`: both the service and the command entry exist. -/
def is_internal (reg : Registry) (service command : String) : Bool :=
  match reg.lookup service with
  | none => false
  | some svc => (svc.commands.lookup command).isSome

/-- A chain element: `Service`, `Command` and `Event` named tuples. -/
inductive ChainElem where
  | Service (name : String)
  | Command (name : String)
  | Event (name : String)
deriving DecidableEq, Repr

/-- The `name` field shared by all three chain element kinds. -/
def ChainElem.name : ChainElem → String
  | .Service n => n
  | .Command n => n
  | .Event n => n

/-- Whether a chain element is a `Service`. -/
def ChainElem.isService : ChainElem → Bool
  | .Service _ => true
  | _ => false

/-- Whether a chain element is a `Command`. -/
def ChainElem.isCommand : ChainElem → Bool
  | .Command _ => true
  | _ => false

/-- The kind of an exception escaping the dispatch core. -/
inductive ErrKind where
  | assertionError
  | fuelExhausted
  | keyError (key : String)
  | typeError
  | attributeError
  | valueError
  | invalidLocation (arg : String)
  | neitherFormatNorHttp (service command : String)
  | bodyNonPost (method : String)
  | invokeFailed
  | subscribeFailed (errText : String) (code : Nat)
deriving DecidableEq, Repr

/-- An exception value: its kind together with the `(story, line)` context
that the raising site attached (`AsyncyError(story=..., line=...)`); bare
assertions and dict lookups attach none. -/
structure Err where
  kind : ErrKind
  storyPassed : Bool
  line : Option Line
deriving DecidableEq, Repr

/-- The chain element prepended for one line: `Event` for a `when` line,
`Command` otherwise. -/
def chain_elem_of (line : Line) : ChainElem :=
  if line.method == "when" then .Event line.command else .Command line.command

/-- The ownership test of `get_owner`: the candidate ancestor's `output`
exists, has length one, and its single name equals the service sought. -/
def owns_output (service : String) (l : Line) : Bool :=
  match l.output with
  | some out => out.length == 1 && out.headD "" == service
  | none => false

/-- The inner loop of `resolve_chain` (`get_owner`): walk parent links
upward and return the first strict ancestor that owns `service` as its
single output. A missing parent link is the bare assertion failure of the
source; a dangling line id is a lookup failure. -/
def get_owner (story : Story) (service : String) : Nat → Line → Except Err Line
  | 0, _ => .error ⟨.fuelExhausted, false, none⟩
  | Nat.succ fuel, l =>
    match l.parent with
    | none => .error ⟨.assertionError, false, none⟩
    | some p =>
      match story.lineAt p with
      | none => .error ⟨.keyError p, false, none⟩
      | some l2 =>
        if owns_output service l2 then .ok l2 else get_owner story service fuel l2

/-- Whether `cur.service` resolves at this line: it is a key of
`app.services` bound to a non-`None` record, or `(cur.service, cur.command)`
is registered internally. -/
def resolved_at (reg : Registry) (story : Story) (cur : Line) : Bool :=
  (lookupNN story.app.services cur.service).isSome
    || is_internal reg cur.service cur.command

/-- The outer loop of `resolve_chain`, with the chain built so far as the
accumulator (deque `appendleft` becomes list cons). -/
def resolve_chain_aux (reg : Registry) (story : Story) :
    Nat → Line → List ChainElem → Except Err (List ChainElem)
  | 0, _, _ => .error ⟨.fuelExhausted, false, none⟩
  | Nat.succ fuel, cur, chain =>
    let chain2 := chain_elem_of cur :: chain
    if resolved_at reg story cur then
      .ok (.Service cur.service :: chain2)
    else
      match cur.parent with
      | none => .error ⟨.assertionError, false, none⟩
      | some _ =>
        match get_owner story cur.service fuel cur with
        | .error e => .error e
        | .ok owner => resolve_chain_aux reg story fuel owner chain2

/-- `Services.resolve_chain`: the path from the concrete service down to the
command named by `line`, through the ancestry of event outputs. -/
def resolve_chain (reg : Registry) (story : Story) (fuel : Nat) (line : Line) :
    Except Err (List ChainElem) :=
  resolve_chain_aux reg story fuel line []

/-- The successive ancestors visited by `get_owner`'s parent walk, oldest
hop last, cut off at the fuel bound or a broken link. -/
def parent_walk (story : Story) : Nat → Line → List Line
  | 0, _ => []
  | Nat.succ fuel, l =>
    match l.parent with
    | none => []
    | some p =>
      match story.lineAt p with
      | none => []
      | some l2 => l2 :: parent_walk story fuel l2

/-- Python dict indexing `d[key]`: a missing key raises `KeyError`, indexing
a non-dict raises `TypeError`; neither carries story context. -/
def valIndex (v : Val) (key : String) : Except Err Val :=
  match v with
  | .obj fields =>
    match lookupVal fields key with
    | some x => .ok x
    | none => .error ⟨.keyError key, false, none⟩
  | _ => .error ⟨.typeError, false, none⟩

/-- One chain element of the `get_command_conf` traversal: descend through
`configuration.actions` on a `Service`, through the command key on a
`Command`, and through `events.<name>.output.actions` on an `Event`. -/
def conf_step (next : Val) : ChainElem → Except Err Val
  | .Service n =>
    match valIndex next n with
    | .error e => .error e
    | .ok v1 =>
      match valIndex v1 "configuration" with
      | .error e => .error e
      | .ok v2 => valIndex v2 "actions"
  | .Command n => valIndex next n
  | .Event n =>
    match valIndex next "events" with
    | .error e => .error e
    | .ok v1 =>
      match valIndex v1 n with
      | .error e => .error e
      | .ok v2 =>
        match valIndex v2 "output" with
        | .error e => .error e
        | .ok v3 => valIndex v3 "actions"

/-- The traversal loop of `get_command_conf` along the chain. -/
def get_command_conf_go : Val → List ChainElem → Except Err Val
  | next, [] => .ok next
  | next, entry :: rest =>
    match conf_step next entry with
    | .error e => .error e
    | .ok v => get_command_conf_go v rest

/-- `Services.get_command_conf`: traverse `app.services` along the chain and
return the final node, substituting `{}` for a falsy node (`next or {}`). -/
def get_command_conf (story : Story) (chain : List ChainElem) : Except Err Val :=
  (get_command_conf_go (.obj story.app.services) chain).map
    (fun v => if v.truthy then v else .obj [])

/-- The branch `execute` selects after the internal-registry check. -/
inductive Branch where
  | internal
  | external
deriving DecidableEq, Repr

/-- `Services.execute`: resolve the chain, then dispatch on
`is_internal(chain[0].name, chain[-1].name)`. The `isinstance(chain[0],
Service)` assertion is the error case of a non-`Service` head. -/
def execute (reg : Registry) (story : Story) (fuel : Nat) (line : Line) :
    Except Err Branch :=
  match resolve_chain reg story fuel line with
  | .error e => .error e
  | .ok chain =>
    match chain with
    | [] => .error ⟨.assertionError, false, none⟩
    | c0 :: rest =>
      match c0 with
      | .Service s =>
        match (c0 :: rest).getLast? with
        | some lastElem =>
          if is_internal reg s lastElem.name then .ok .internal else .ok .external
        | none => .error ⟨.assertionError, false, none⟩
      | _ => .error ⟨.assertionError, false, none⟩

/-- The observable effect of a successful internal dispatch: the handler
invocation with the line, keyed by the line's literal service and command,
and the resolved argument mapping. -/
structure HandlerCall where
  service : String
  command : String
  resolved_args : List (String × Val)

/-- `Services.execute_internal`: fetch the handler from the registry by
`line['service']` and `line['command']`. A missing service is a `KeyError`;
a missing command leaves `command = None` and the subsequent
`command.arguments` access raises `AttributeError`. -/
def execute_internal (reg : Registry) (story : Story) (line : Line) :
    Except Err HandlerCall :=
  match reg.lookup line.service with
  | none => .error ⟨.keyError line.service, false, none⟩
  | some svc =>
    match svc.commands.lookup line.command with
    | none => .error ⟨.attributeError, false, none⟩
    | some cmd =>
      .ok ⟨line.service, line.command,
           cmd.arguments.map (fun a => (a, story.argument_by_name line a))⟩

/-- One observable step of `execute_external`: the container-bootstrap call
and the selected transport. -/
inductive ExtAction where
  | startContainer
  | containersExec (service command : String)
  | executeInline
  | executeHttp
deriving DecidableEq, Repr

/-- `Services.execute_external`: resolve the chain, look up the command
configuration, always call `start_container`, then select the transport:
`format` wins over `http`; inside `http`, `use_event_conn` selects the
in-line write; neither section is the fatal configuration error carrying
`(story, line)`. The result is the action trace paired with the escaping
exception, if any. -/
def execute_external (reg : Registry) (story : Story) (line : Line) (fuel : Nat) :
    List ExtAction × Option Err :=
  match resolve_chain reg story fuel line with
  | .error e => ([], some e)
  | .ok chain =>
    match get_command_conf story chain with
    | .error e => ([], some e)
    | .ok command_conf =>
      match command_conf with
      | .obj confFields =>
        if (lookupNN confFields "format").isSome then
          ([.startContainer, .containersExec line.service line.command], none)
        else
          match lookupNN confFields "http" with
          | some (.obj httpFields) =>
            if ((lookupVal httpFields "use_event_conn").getD (.bool false)).truthy then
              ([.startContainer, .executeInline], none)
            else
              ([.startContainer, .executeHttp], none)
          | some _ => ([.startContainer], some ⟨.attributeError, false, none⟩)
          | none =>
            ([.startContainer],
             some ⟨.neitherFormatNorHttp line.service line.command, true, some line⟩)
      | _ => ([.startContainer], some ⟨.attributeError, false, none⟩)

/-- The argument iteration of `execute_http`: partition declared arguments
into the `body`, `query_params` and `path_params` dicts on
`args[arg].get('in', 'requestBody')`, in declaration order. An unknown
location raises the configuration error without story context; a non-dict
argument descriptor raises `AttributeError`. -/
def build_bags (resolve : String → Val) :
    List (String × Val) → List (String × Val) → List (String × Val) → List (String × Val) →
    Except Err (List (String × Val) × List (String × Val) × List (String × Val))
  | [], body, query_params, path_params => .ok (body, query_params, path_params)
  | (arg, argConf) :: rest, body, query_params, path_params =>
    match argConf with
    | .obj fs =>
      let value := resolve arg
      let location := (lookupVal fs "in").getD (.str "requestBody")
      if location.isStr "query" then
        build_bags resolve rest body (query_params ++ [(arg, value)]) path_params
      else if location.isStr "path" then
        build_bags resolve rest body query_params (path_params ++ [(arg, value)])
      else if location.isStr "requestBody" then
        build_bags resolve rest (body ++ [(arg, value)]) query_params path_params
      else .error ⟨.invalidLocation arg, false, none⟩
    | _ => .error ⟨.attributeError, false, none⟩

/-- The bag an argument descriptor is routed to, `none` for an unknown
location (matching the `if/elif` chain of `build_bags`). -/
def loc_tag (argConf : Val) : Option String :=
  match argConf with
  | .obj fs =>
    let location := (lookupVal fs "in").getD (.str "requestBody")
    if location.isStr "query" then some "query"
    else if location.isStr "path" then some "path"
    else if location.isStr "requestBody" then some "requestBody"
    else none
  | _ => none

/-- The contents of one bag, as a function of the declared arguments. -/
def bag_of (resolve : String → Val) (tag : String) (l : List (String × Val)) :
    List (String × Val) :=
  l.filterMap (fun ac => if loc_tag ac.2 = some tag then some (ac.1, resolve ac.1) else none)

/-- The left brace character. -/
def lbrace : Char := Char.ofNat 123

/-- The right brace character. -/
def rbrace : Char := Char.ofNat 125

/-- `str.format(**path_params)` on the path template: substitute each
brace-delimited name with the rendered parameter value; a name absent from
the parameters raises `KeyError`, an unterminated field raises
`ValueError`. The boolean flag is inside-a-field state, the accumulator the
reversed name read so far. -/
def format_template (params : List (String × Val)) :
    List Char → Bool → List Char → Except Err String
  | [], false, _ => .ok ""
  | [], true, _ => .error ⟨.valueError, false, none⟩
  | ch :: rest, false, acc =>
    if ch = lbrace then format_template params rest true []
    else
      match format_template params rest false acc with
      | .ok t => .ok (String.mk [ch] ++ t)
      | .error e => .error e
  | ch :: rest, true, acc =>
    if ch = rbrace then
      match lookupVal params (String.mk acc.reverse) with
      | some v =>
        match format_template params rest false [] with
        | .ok t => .ok (v.pyStr ++ t)
        | .error e => .error e
      | none => .error ⟨.keyError (String.mk acc.reverse), false, none⟩
    else format_template params rest true (ch :: acc)

/-- Modelled from the spec: `HttpUtils.add_params_to_url` lives in the
repository's `utils/HttpUtils.py`, which is not among the sources; per
§4.5 the path is the substituted template "then query parameters appended".
Percent-encoding is abstracted away. -/
def add_params_to_url (url : String) (params : List (String × Val)) : String :=
  match params with
  | [] => url
  | _ =>
    url ++ "?" ++ join_sep "&" (params.map (fun kv => kv.1 ++ "=" ++ kv.2.pyStr))

/-- The outbound request `execute_http` hands to the retrying HTTP client:
the `kwargs` dict (uppercased method, optional JSON body, optional headers)
plus the composed URL. -/
structure HttpRequestOut where
  method : String
  body : Option Val
  headers : Option (List (String × String))
  url : String

/-- The iterable accepted for `conf.get('arguments')`: a dict yields its
items, an empty list or string yields nothing, and anything else fails on
iteration or on the first `args[arg]` access. -/
def arg_fields_of : Option Val → Except Err (List (String × Val))
  | some (.obj argFields) => .ok argFields
  | some (.list []) => .ok []
  | some (.str "") => .ok []
  | _ => .error ⟨.typeError, false, none⟩

/-- The tail of `execute_http`'s request build: default port 5000, the
substituted path template with query parameters appended, and the final
URL. -/
def finish_request (httpFields : List (String × Val)) (hostname method : String)
    (body : Option Val) (headers : Option (List (String × String)))
    (query_params path_params : List (String × Val)) : Except Err HttpRequestOut :=
  let port := (lookupVal httpFields "port").getD (.num 5000)
  match lookupVal httpFields "path" with
  | some (.str pathTemplate) =>
    match format_template path_params pathTemplate.data false [] with
    | .ok formatted =>
      .ok ⟨py_upper method, body, headers,
           "http://" ++ hostname ++ ":" ++ port.pyStr ++ add_params_to_url formatted query_params⟩
    | .error e => .error e
  | some _ => .error ⟨.attributeError, false, none⟩
  | none => .error ⟨.keyError "path", false, none⟩

/-- The request-building half of `Services.execute_http` (everything before
the awaited fetch): hostname comes from the container manager, arguments
are partitioned into the three bags, the method defaults to `post` and is
uppercased, a `POST` carries the JSON body and the JSON content type, a
body-bearing non-`POST` raises the configuration error with `(story, line)`
before any request exists, and otherwise the request carries neither body
nor headers. -/
def execute_http_request (story : Story) (line : Line) (chain : List ChainElem)
    (hostname : String) (command_conf : Val) : Except Err HttpRequestOut :=
  match chain.head? with
  | some (.Service _) =>
    match command_conf with
    | .obj confFields =>
      match arg_fields_of (lookupVal confFields "arguments") with
      | .error e => .error e
      | .ok argFields =>
        match build_bags (story.argument_by_name line) argFields [] [] [] with
        | .error e => .error e
        | .ok (body, query_params, path_params) =>
          match lookupVal confFields "http" with
          | some (.obj httpFields) =>
            match (lookupVal httpFields "method").getD (.str "post") with
            | .str method =>
              if py_lower method = "post" then
                finish_request httpFields hostname method (some (.obj body))
                  (some [("Content-Type", "application/json; charset=utf-8")])
                  query_params path_params
              else if body.length > 0 then
                .error ⟨.bodyNonPost method, true, some line⟩
              else
                finish_request httpFields hostname method none none query_params path_params
            | _ => .error ⟨.attributeError, false, none⟩
          | some _ => .error ⟨.attributeError, false, none⟩
          | none => .error ⟨.keyError "http", false, none⟩
    | _ => .error ⟨.attributeError, false, none⟩
  | _ => .error ⟨.assertionError, false, none⟩

/-- The HTTP response as the core observes it: status code, the
`Content-Type` header if any, the raw body, and the transport error text. -/
structure HttpResponse where
  code : Nat
  contentType : Option String := none
  body : String := ""
  errText : String := ""
deriving DecidableEq, Repr

/-- The `content_type and 'application/json' in content_type` test. -/
def content_type_is_json : Option String → Bool
  | none => false
  | some ct => (ct != "") && py_contains ct "application/json"

/-- The value `execute_http` returns for a 2xx response: the JSON-parsed
body (parsing itself delegated to `ujson`) or the raw body. -/
inductive HttpResult where
  | parsedJson (body : String)
  | rawBody (body : String)
deriving DecidableEq, Repr

/-- The response-handling half of `Services.execute_http`: a 2xx status
(`int(code / 100) == 2`) returns the parsed JSON when the content type
contains `application/json` and the raw body otherwise; any other status
raises the fatal invocation error with `(story, line)`. -/
def handle_http_response (line : Line) (response : HttpResponse) :
    Except Err HttpResult :=
  if response.code / 100 == 2 then
    if content_type_is_json response.contentType then
      .ok (.parsedJson response.body)
    else
      .ok (.rawBody response.body)
  else
    .error ⟨.invokeFailed, true, some line⟩

/-- Modelled from the spec: `utils.Dict.find` is not among the sources; per
§4.6 it reads a dotted path out of nested configuration with a default for
a missing key. -/
def dict_find : Val → List String → Val → Val
  | v, [], _ => v
  | .obj fields, key :: rest, dflt =>
    match lookupVal fields key with
    | some v => dict_find v rest dflt
    | none => dflt
  | _, _ :: _, dflt => dflt

/-- Replacement-or-append dict assignment, for `data['host'] = ...`. -/
def dict_set : List (String × Val) → String → Val → List (String × Val)
  | [], key, v => [(key, v)]
  | (k, w) :: rest, key, v =>
    if k == key then (k, v) :: rest else (k, w) :: dict_set rest key v

/-- Modelled from the spec: `urllib.parse.urlencode`; §4.6 composes the
callback endpoint query string from `story`, `block` and `app`.
Percent-encoding is abstracted away. -/
def urlencode (params : List (String × String)) : String :=
  join_sep "&" (params.map (fun kv => kv.1 ++ "=" ++ kv.2))

/-- The `app.add_subscription(sub_id, streaming_service, event, body)` call
recorded on the application. -/
structure AddSubscription where
  sub_id : String
  service : StreamingService
  event : String
  body : Val
deriving Repr

/-- The keys iterated for the event arguments (`for key in event_args`). -/
def iter_keys : Val → Except Err (List String)
  | .obj fields => .ok (fields.map Prod.fst)
  | .list [] => .ok []
  | .str "" => .ok []
  | _ => .error ⟨.typeError, false, none⟩

/-- The request-building half of `Services.when` (everything before the
awaited fetch): read the event configuration, default the port to 80 and
the subscribe method to `post`, resolve the declared event arguments,
inject `data.host` for the `http` gateway service, and compose the
subscription body. The fresh uuid is an input. Returns the broker URL and
the subscription body. -/
def when_build (s : StreamingService) (story : Story) (line : Line)
    (sub_id : String) : Except Err (String × Val) :=
  let command := line.command
  match lookupVal story.app.services s.name with
  | none => .error ⟨.keyError s.name, false, none⟩
  | some serviceRecord =>
    match valIndex serviceRecord "configuration" with
    | .error e => .error e
    | .ok conf =>
      let conf_event := dict_find conf ["actions", s.command, "events", command] .null
      let port := dict_find conf_event ["http", "port"] (.num 80)
      let subscribe_path := dict_find conf_event ["http", "subscribe", "path"] .null
      let subscribe_method :=
        dict_find conf_event ["http", "subscribe", "method"] (.str "post")
      let event_args := dict_find conf_event ["arguments"] (.obj [])
      match iter_keys event_args with
      | .error e => .error e
      | .ok keys =>
        let data0 := keys.map (fun k => (k, story.argument_by_name line k))
        let data := if s.name == "http" then dict_set data0 "host" (.str story.app.app_dns)
                    else data0
        let sub_url := "http://" ++ s.hostname ++ ":" ++ port.pyStr ++ subscribe_path.pyStr
        let engine := story.app.config.ENGINE_HOST ++ ":" ++ toString story.app.config.ENGINE_PORT
        let query_params := urlencode
          [("story", story.name), ("block", line.ln), ("app", story.app.app_id)]
        let sub_body : Val := .obj
          [("endpoint", .str ("http://" ++ engine ++ "/story/event?" ++ query_params)),
           ("data", .obj data),
           ("event", .str command),
           ("id", .str sub_id)]
        match subscribe_method with
        | .str m =>
          let body : Val := .obj
            [("sub_id", .str sub_id),
             ("sub_url", .str sub_url),
             ("sub_method", .str (py_upper m)),
             ("sub_body", sub_body),
             ("pod_name", .str s.container_name),
             ("app_id", .str story.app.app_id)]
          let url := "http://" ++ story.app.config.ASYNCY_SYNAPSE_HOST ++ ":" ++
            toString story.app.config.ASYNCY_SYNAPSE_PORT ++ "/subscribe"
          .ok (url, body)
        | _ => .error ⟨.attributeError, false, none⟩

/-- The response-handling half of `Services.when`: a 2xx broker status adds
the subscription on the application; anything else raises the fatal
subscription error carrying the error text, the status code and
`(story, line)`. -/
def when_response (s : StreamingService) (line : Line) (sub_id : String)
    (body : Val) (response : HttpResponse) : Except Err AddSubscription :=
  if response.code / 100 == 2 then
    .ok ⟨sub_id, s, line.command, body⟩
  else
    .error ⟨.subscribeFailed response.errText response.code, true, some line⟩

/-- `Services.when`, with the broker's response as an input: build the
subscription request, then either add the subscription or fail. -/
def when (s : StreamingService) (story : Story) (line : Line) (sub_id : String)
    (response : HttpResponse) : Except Err AddSubscription :=
  match when_build s story line sub_id with
  | .error e => .error e
  | .ok (_url, body) => when_response s line sub_id body response

/-! Concrete fixtures, mirroring the story trees and service configurations
of the unit tests for the dispatch core. -/

/-- An empty internal-service registry. -/
def emptyRegistry : Registry := []

/-- `execute alpine echo` with output `client` (line 1 of the test story). -/
def tLine1 : Line :=
  { service := "alpine", command := "echo", method := "execute",
    output := some ["client"], ln := "1" }

/-- `when client foo` with output `echo_helper` (line 2). -/
def tLine2 : Line :=
  { service := "client", command := "foo", method := "when",
    parent := some "1", output := some ["echo_helper"], ln := "2" }

/-- `execute alpine echo` nested below the event (line 3). -/
def tLine3 : Line :=
  { service := "alpine", command := "echo", method := "execute",
    parent := some "2", ln := "3" }

/-- `execute echo_helper sonar` below line 3 (line 4). -/
def tLine4 : Line :=
  { service := "echo_helper", command := "sonar", method := "execute",
    parent := some "3", ln := "4" }

/-- `execute echo_helper sonar` below the event (line 5). -/
def tLine5 : Line :=
  { service := "echo_helper", command := "sonar", method := "execute",
    parent := some "2", ln := "5" }

/-- The chain-resolution test story: `alpine` is the only concrete service. -/
def chainStory : Story :=
  { tree := [("1", tLine1), ("2", tLine2), ("3", tLine3), ("4", tLine4), ("5", tLine5)],
    app := { services := [("alpine", .obj [])] },
    argument_by_name := fun _ _ => .null }

/-- The `cups/print` line of the exec-transport test. -/
def cupsLine : Line := { service := "cups", command := "print", method := "execute" }

/-- A service whose `print` action declares only a `format` section. -/
def cupsStory : Story :=
  { tree := [],
    app := { services :=
      [("cups", .obj
        [("configuration", .obj
          [("actions", .obj
            [("print", .obj [("format", .obj [])])])])])] },
    argument_by_name := fun _ _ => .null }

/-- A story whose argument resolver always yields `"bar"`, as in the HTTP
dispatch tests. -/
def barStory : Story :=
  { tree := [], app := { services := [] },
    argument_by_name := fun _ _ => .str "bar" }

/-- A bare line with only a line number, as in the HTTP dispatch tests. -/
def httpLine : Line := { service := "service", command := "cmd", method := "execute", ln := "1" }

/-- The chain of the HTTP dispatch tests. -/
def httpChain : List ChainElem := [.Service "service", .Command "cmd"]

/-- The command configuration of the HTTP dispatch tests, parameterised by
method, path and the argument location. -/
def httpConf (method path loc : String) : Val :=
  .obj [("http", .obj [("method", .str method), ("port", .num 2771), ("path", .str path)]),
        ("arguments", .obj [("foo", .obj [("in", .str loc)])])]

/-! Helper lemmas shared by the claim theorems. -/

/-- A successful run of the resolver loop yields a `Service` head followed
by the accumulated tail, whose innermost element is the one contributed by
the starting line. -/
theorem resolve_chain_aux_shape (reg : Registry) (story : Story) :
    ∀ (fuel : Nat) (cur : Line) (acc out : List ChainElem),
    resolve_chain_aux reg story fuel cur acc = .ok out →
    ∃ s mid, out = .Service s :: (mid ++ (chain_elem_of cur :: acc)) := by
  intro fuel
  induction fuel with
  | zero =>
    intro cur acc out h
    simp [resolve_chain_aux] at h
  | succ fuel ih =>
    intro cur acc out h
    simp only [resolve_chain_aux] at h
    by_cases hres : resolved_at reg story cur
    · rw [if_pos hres] at h
      refine ⟨cur.service, [], ?_⟩
      simpa using h.symm
    · rw [if_neg hres] at h
      cases hp : cur.parent with
      | none => rw [hp] at h; exact absurd h (by simp)
      | some p =>
        rw [hp] at h
        cases hg : get_owner story cur.service fuel cur with
        | error e => rw [hg] at h; exact absurd h (by simp)
        | ok owner =>
          rw [hg] at h
          obtain ⟨s, mid, hout⟩ := ih owner (chain_elem_of cur :: acc) out h
          exact ⟨s, mid ++ [chain_elem_of owner], by simpa using hout⟩

/-- On success, a resolved chain starts with a `Service` element and ends
with the element contributed by the line it was resolved for. -/
theorem resolve_chain_shape (reg : Registry) (story : Story) (fuel : Nat)
    (line : Line) (chain : List ChainElem)
    (h : resolve_chain reg story fuel line = .ok chain) :
    ∃ s mid, chain = .Service s :: mid ∧ chain.getLast? = some (chain_elem_of line) := by
  obtain ⟨s, mid, hout⟩ := resolve_chain_aux_shape reg story fuel line [] chain h
  refine ⟨s, mid ++ [chain_elem_of line], by simpa using hout, ?_⟩
  rw [hout]
  rw [show ChainElem.Service s :: (mid ++ [chain_elem_of line]) =
        (ChainElem.Service s :: mid) ++ [chain_elem_of line] by simp]
  exact List.getLast?_concat _

/-- If resolution succeeded but the chain head names a service other than
the line's own, then the line's own `(service, command)` pair was not
resolvable in place; in particular it is not internally registered. -/
theorem resolve_chain_head_ne_not_internal (reg : Registry) (story : Story)
    (fuel : Nat) (line : Line) (s : String) (rest : List ChainElem)
    (h : resolve_chain reg story fuel line = .ok (.Service s :: rest))
    (hne : s ≠ line.service) :
    is_internal reg line.service line.command = false := by
  cases fuel with
  | zero => simp [resolve_chain, resolve_chain_aux] at h
  | succ fuel =>
    simp only [resolve_chain, resolve_chain_aux] at h
    by_cases hres : resolved_at reg story line
    · rw [if_pos hres] at h
      have h2 : line.service = s := by
        have h3 := h
        simp at h3
        exact h3.1
      exact absurd h2.symm hne
    · have : (resolved_at reg story line) = false := by
        simpa using hres
      have hor := this
      simp only [resolved_at, Bool.or_eq_false_iff] at hor
      exact hor.2

/-- `get_owner` returns precisely the first ancestor on the parent walk
that owns the sought service as its single output. -/
theorem get_owner_is_first_owner (story : Story) (service : String) :
    ∀ (fuel : Nat) (l o : Line),
    get_owner story service fuel l = .ok o →
    (parent_walk story fuel l).find? (owns_output service) = some o := by
  intro fuel
  induction fuel with
  | zero =>
    intro l o h
    simp [get_owner] at h
  | succ fuel ih =>
    intro l o h
    cases hp : l.parent with
    | none => simp [get_owner, hp] at h
    | some p =>
      cases hl : story.lineAt p with
      | none => simp [get_owner, hp, hl] at h
      | some l2 =>
        by_cases hown : owns_output service l2 = true
        · simp only [get_owner, hp, hl, if_pos hown] at h
          simp only [parent_walk, hp, hl]
          rw [List.find?_cons_of_pos _ hown]
          simpa using h
        · simp only [get_owner, hp, hl, if_neg hown] at h
          simp only [parent_walk, hp, hl]
          rw [List.find?_cons_of_neg _ (by simpa using hown)]
          exact ih l2 o h

/-- One step of a bag: the head argument contributes exactly when it is
routed to that bag. -/
theorem bag_of_cons (resolve : String → Val) (tag arg : String) (c : Val)
    (tl : List (String × Val)) :
    bag_of resolve tag ((arg, c) :: tl) =
      (if loc_tag c = some tag then [(arg, resolve arg)] else []) ++ bag_of resolve tag tl := by
  by_cases hc : loc_tag c = some tag <;> simp [bag_of, List.filterMap_cons, hc]

/-- A descriptor whose location resolves to `query`. -/
theorem loc_tag_query (fs : List (String × Val))
    (h1 : ((lookupVal fs "in").getD (.str "requestBody")).isStr "query" = true) :
    loc_tag (.obj fs) = some "query" := by
  simp [loc_tag, h1]

/-- A descriptor whose location resolves to `path`. -/
theorem loc_tag_path (fs : List (String × Val))
    (h1 : ((lookupVal fs "in").getD (.str "requestBody")).isStr "query" = false)
    (h2 : ((lookupVal fs "in").getD (.str "requestBody")).isStr "path" = true) :
    loc_tag (.obj fs) = some "path" := by
  simp [loc_tag, h1, h2]

/-- A descriptor whose location resolves to `requestBody`. -/
theorem loc_tag_request_body (fs : List (String × Val))
    (h1 : ((lookupVal fs "in").getD (.str "requestBody")).isStr "query" = false)
    (h2 : ((lookupVal fs "in").getD (.str "requestBody")).isStr "path" = false)
    (h3 : ((lookupVal fs "in").getD (.str "requestBody")).isStr "requestBody" = true) :
    loc_tag (.obj fs) = some "requestBody" := by
  simp [loc_tag, h1, h2, h3]

/-- A descriptor with an unknown location. -/
theorem loc_tag_invalid (fs : List (String × Val))
    (h1 : ((lookupVal fs "in").getD (.str "requestBody")).isStr "query" = false)
    (h2 : ((lookupVal fs "in").getD (.str "requestBody")).isStr "path" = false)
    (h3 : ((lookupVal fs "in").getD (.str "requestBody")).isStr "requestBody" = false) :
    loc_tag (.obj fs) = none := by
  simp [loc_tag, h1, h2, h3]

/-- The argument loop succeeds exactly when every declared argument has a
known location, and then each bag is the ordered selection of the arguments
routed to it, appended to the incoming accumulator. -/
theorem build_bags_ok_iff (resolve : String → Val) :
    ∀ (l b q p B Q P : List (String × Val)),
    build_bags resolve l b q p = .ok (B, Q, P) ↔
      ((∀ ac ∈ l, (loc_tag ac.2).isSome) ∧
       B = b ++ bag_of resolve "requestBody" l ∧
       Q = q ++ bag_of resolve "query" l ∧
       P = p ++ bag_of resolve "path" l) := by
  intro l
  induction l with
  | nil =>
    intro b q p B Q P
    constructor
    · intro h
      simp only [build_bags, Except.ok.injEq, Prod.mk.injEq] at h
      obtain ⟨rfl, rfl, rfl⟩ := h
      simp [bag_of]
    · rintro ⟨-, rfl, rfl, rfl⟩
      simp [build_bags, bag_of]
  | cons hd tl ih =>
    intro b q p B Q P
    obtain ⟨arg, argConf⟩ := hd
    cases argConf with
    | obj fs =>
      by_cases h1 : ((lookupVal fs "in").getD (.str "requestBody")).isStr "query" = true
      · rw [show build_bags resolve ((arg, Val.obj fs) :: tl) b q p =
            build_bags resolve tl b (q ++ [(arg, resolve arg)]) p by
          simp only [build_bags, h1, if_true]]
        rw [ih]
        simp [bag_of_cons, loc_tag_query fs h1, List.append_assoc]
      · rw [Bool.not_eq_true] at h1
        by_cases h2 : ((lookupVal fs "in").getD (.str "requestBody")).isStr "path" = true
        · rw [show build_bags resolve ((arg, Val.obj fs) :: tl) b q p =
              build_bags resolve tl b q (p ++ [(arg, resolve arg)]) by
            simp only [build_bags, h1, h2, if_true, Bool.false_eq_true, if_false]]
          rw [ih]
          simp [bag_of_cons, loc_tag_path fs h1 h2, List.append_assoc]
        · rw [Bool.not_eq_true] at h2
          by_cases h3 : ((lookupVal fs "in").getD (.str "requestBody")).isStr "requestBody" = true
          · rw [show build_bags resolve ((arg, Val.obj fs) :: tl) b q p =
                build_bags resolve tl (b ++ [(arg, resolve arg)]) q p by
              simp only [build_bags, h1, h2, h3, if_true, Bool.false_eq_true, if_false]]
            rw [ih]
            simp [bag_of_cons, loc_tag_request_body fs h1 h2 h3, List.append_assoc]
          · rw [Bool.not_eq_true] at h3
            rw [show build_bags resolve ((arg, Val.obj fs) :: tl) b q p =
                .error ⟨.invalidLocation arg, false, none⟩ by
              simp only [build_bags, h1, h2, h3, Bool.false_eq_true, if_false]]
            simp [loc_tag_invalid fs h1 h2 h3]
    | null => simp [build_bags, loc_tag]
    | bool b2 => simp [build_bags, loc_tag]
    | num n => simp [build_bags, loc_tag]
    | str s => simp [build_bags, loc_tag]
    | list xs => simp [build_bags, loc_tag]

/-- In a dict (unique keys), an argument's descriptor is determined by its
name. -/
theorem nodup_keys_eq :
    ∀ {l : List (String × Val)}, (l.map Prod.fst).Nodup →
    ∀ {a : String} {c c2 : Val}, (a, c) ∈ l → (a, c2) ∈ l → c = c2 := by
  intro l
  induction l with
  | nil => intro _ a c c2 h1; simp at h1
  | cons hd tl ih =>
    obtain ⟨k, v⟩ := hd
    intro hnd a c c2 h1 h2
    simp only [List.map_cons, List.nodup_cons] at hnd
    rcases List.mem_cons.mp h1 with he1 | ht1
    · rcases List.mem_cons.mp h2 with he2 | ht2
      · exact (Prod.ext_iff.mp (he1.trans he2.symm)).2
      · exfalso
        apply hnd.1
        injection he1 with h4 h5
        subst h4
        exact List.mem_map.mpr ⟨(a, c2), ht2, rfl⟩
    · rcases List.mem_cons.mp h2 with he2 | ht2
      · exfalso
        apply hnd.1
        injection he2 with h4 h5
        subst h4
        exact List.mem_map.mpr ⟨(a, c), ht1, rfl⟩
      · exact ih hnd.2 ht1 ht2

/-- An argument name appears in a bag exactly when some descriptor of that
name routes there. -/
theorem mem_bag_keys (resolve : String → Val) (tag : String) :
    ∀ (l : List (String × Val)) (a : String),
    a ∈ (bag_of resolve tag l).map Prod.fst ↔
      ∃ c, (a, c) ∈ l ∧ loc_tag c = some tag := by
  intro l a
  induction l with
  | nil => simp [bag_of]
  | cons hd tl ih =>
    obtain ⟨k, c⟩ := hd
    rw [bag_of_cons]
    by_cases hc : loc_tag c = some tag
    · simp only [hc, if_true, List.singleton_append, List.map_cons, List.mem_cons, ih]
      constructor
      · rintro (rfl | ⟨c2, hm, ht⟩)
        · exact ⟨c, Or.inl rfl, hc⟩
        · exact ⟨c2, Or.inr hm, ht⟩
      · rintro ⟨c2, he | hmt, ht⟩
        · injection he with h1 h2
          exact Or.inl h1
        · exact Or.inr ⟨c2, hmt, ht⟩
    · simp only [hc, if_false, List.nil_append, ih, List.mem_cons]
      constructor
      · rintro ⟨c2, hm, ht⟩
        exact ⟨c2, Or.inr hm, ht⟩
      · rintro ⟨c2, he | hmt, ht⟩
        · injection he with h1 h2
          subst h2
          exact absurd ht hc
        · exact ⟨c2, hmt, ht⟩

/-- An error raised without story context: no story pointer, no line, and
not the body-bearing-non-POST error (the only contextful error of the
request builder). -/
def ctxFree (e : Err) : Prop :=
  e.storyPassed = false ∧ e.line = none ∧
  (∀ m, e.kind ≠ ErrKind.bodyNonPost m) ∧
  (∀ sv cm, e.kind ≠ ErrKind.neitherFormatNorHttp sv cm)

/-- Every error of the argument loop is context-free. -/
theorem build_bags_error_ctx (resolve : String → Val) :
    ∀ (l b q p : List (String × Val)) (e : Err),
    build_bags resolve l b q p = .error e → ctxFree e := by
  intro l
  induction l with
  | nil =>
    intro b q p e h
    simp [build_bags] at h
  | cons hd tl ih =>
    intro b q p e h
    obtain ⟨arg, argConf⟩ := hd
    cases argConf with
    | obj fs =>
      simp only [build_bags] at h
      split at h
      · exact ih _ _ _ _ h
      · split at h
        · exact ih _ _ _ _ h
        · split at h
          · exact ih _ _ _ _ h
          · simp only [Except.error.injEq] at h
            subst h
            exact ⟨rfl, rfl, fun m hm => by simp at hm, fun sv cm hm => by simp at hm⟩
    | null =>
      simp only [build_bags, Except.error.injEq] at h
      subst h
      exact ⟨rfl, rfl, fun m hm => by simp at hm, fun sv cm hm => by simp at hm⟩
    | bool b2 =>
      simp only [build_bags, Except.error.injEq] at h
      subst h
      exact ⟨rfl, rfl, fun m hm => by simp at hm, fun sv cm hm => by simp at hm⟩
    | num n =>
      simp only [build_bags, Except.error.injEq] at h
      subst h
      exact ⟨rfl, rfl, fun m hm => by simp at hm, fun sv cm hm => by simp at hm⟩
    | str s =>
      simp only [build_bags, Except.error.injEq] at h
      subst h
      exact ⟨rfl, rfl, fun m hm => by simp at hm, fun sv cm hm => by simp at hm⟩
    | list xs =>
      simp only [build_bags, Except.error.injEq] at h
      subst h
      exact ⟨rfl, rfl, fun m hm => by simp at hm, fun sv cm hm => by simp at hm⟩

/-- Every error of the path-template substitution is context-free. -/
theorem format_template_error_ctx (params : List (String × Val)) :
    ∀ (cs : List Char) (flag : Bool) (acc : List Char) (e : Err),
    format_template params cs flag acc = .error e → ctxFree e := by
  intro cs
  induction cs with
  | nil =>
    intro flag acc e h
    cases flag with
    | false => simp [format_template] at h
    | true =>
      simp only [format_template, Except.error.injEq] at h
      subst h
      exact ⟨rfl, rfl, fun m hm => by simp at hm, fun sv cm hm => by simp at hm⟩
  | cons ch rest ih =>
    intro flag acc e h
    cases flag with
    | false =>
      simp only [format_template] at h
      split at h
      · exact ih _ _ _ h
      · split at h
        · simp at h
        · simp only [Except.error.injEq] at h
          subst h
          exact ih _ _ _ (by assumption)
    | true =>
      simp only [format_template] at h
      split at h
      · split at h
        · split at h
          · simp at h
          · simp only [Except.error.injEq] at h
            subst h
            exact ih _ _ _ (by assumption)
        · simp only [Except.error.injEq] at h
          subst h
          exact ⟨rfl, rfl, fun m hm => by simp at hm, fun sv cm hm => by simp at hm⟩
      · exact ih _ _ _ h

/-- Every error of the URL-building tail of the request builder is
context-free. -/
theorem finish_request_error_ctx (httpFields : List (String × Val))
    (hostname method : String) (body : Option Val)
    (headers : Option (List (String × String)))
    (query_params path_params : List (String × Val)) (e : Err)
    (h : finish_request httpFields hostname method body headers query_params path_params
        = .error e) : ctxFree e := by
  simp only [finish_request] at h
  split at h
  · split at h
    · simp at h
    · simp only [Except.error.injEq] at h
      subst h
      exact format_template_error_ctx _ _ _ _ _ (by assumption)
  · simp only [Except.error.injEq] at h
    subst h
    exact ⟨rfl, rfl, fun m hm => by simp at hm, fun sv cm hm => by simp at hm⟩
  · simp only [Except.error.injEq] at h
    subst h
    exact ⟨rfl, rfl, fun m hm => by simp at hm, fun sv cm hm => by simp at hm⟩

/-- Every error of the owner search is context-free. -/
theorem get_owner_error_ctx (story : Story) (service : String) :
    ∀ (fuel : Nat) (l : Line) (e : Err),
    get_owner story service fuel l = .error e → ctxFree e := by
  intro fuel
  induction fuel with
  | zero =>
    intro l e h
    simp only [get_owner, Except.error.injEq] at h
    subst h
    exact ⟨rfl, rfl, fun m hm => by simp at hm, fun sv cm hm => by simp at hm⟩
  | succ fuel ih =>
    intro l e h
    cases hp : l.parent with
    | none =>
      simp only [get_owner, hp, Except.error.injEq] at h
      subst h
      exact ⟨rfl, rfl, fun m hm => by simp at hm, fun sv cm hm => by simp at hm⟩
    | some p =>
      cases hl : story.lineAt p with
      | none =>
        simp only [get_owner, hp, hl, Except.error.injEq] at h
        subst h
        exact ⟨rfl, rfl, fun m hm => by simp at hm, fun sv cm hm => by simp at hm⟩
      | some l2 =>
        by_cases hown : owns_output service l2 = true
        · simp [get_owner, hp, hl, hown] at h
        · simp only [get_owner, hp, hl, if_neg hown] at h
          exact ih l2 e h

/-- Every error of the resolver loop is context-free. -/
theorem resolve_chain_aux_error_ctx (reg : Registry) (story : Story) :
    ∀ (fuel : Nat) (cur : Line) (acc : List ChainElem) (e : Err),
    resolve_chain_aux reg story fuel cur acc = .error e → ctxFree e := by
  intro fuel
  induction fuel with
  | zero =>
    intro cur acc e h
    simp only [resolve_chain_aux, Except.error.injEq] at h
    subst h
    exact ⟨rfl, rfl, fun m hm => by simp at hm, fun sv cm hm => by simp at hm⟩
  | succ fuel ih =>
    intro cur acc e h
    simp only [resolve_chain_aux] at h
    by_cases hres : resolved_at reg story cur
    · rw [if_pos hres] at h
      simp at h
    · rw [if_neg hres] at h
      cases hp : cur.parent with
      | none =>
        rw [hp] at h
        have h2 : (⟨.assertionError, false, none⟩ : Err) = e := by simpa using h
        subst h2
        exact ⟨rfl, rfl, fun m hm => by simp at hm, fun sv cm hm => by simp at hm⟩
      | some p =>
        rw [hp] at h
        cases hg : get_owner story cur.service fuel cur with
        | error e2 =>
          rw [hg] at h
          have h2 : e2 = e := by simpa using h
          subst h2
          exact get_owner_error_ctx story cur.service fuel cur e2 hg
        | ok owner =>
          rw [hg] at h
          exact ih owner _ e h

/-- Every error of chain resolution is context-free: the source raises them
as bare assertions or dict lookups, never through `AsyncyError`. -/
theorem resolve_chain_error_ctx (reg : Registry) (story : Story) (fuel : Nat)
    (line : Line) (e : Err) (h : resolve_chain reg story fuel line = .error e) :
    ctxFree e :=
  resolve_chain_aux_error_ctx reg story fuel line [] e h

/-- Every error of the `arguments` iteration set-up is context-free. -/
theorem arg_fields_of_error_ctx (ov : Option Val) (e : Err)
    (h : arg_fields_of ov = .error e) : ctxFree e := by
  unfold arg_fields_of at h
  split at h <;>
    first
      | exact Except.noConfusion h
      | (injection h with h2
         subst h2
         exact ⟨rfl, rfl, fun m hm => by simp at hm, fun sv cm hm => by simp at hm⟩)

/-- A successfully built request keeps the uppercased method and exactly
the body and headers selected by the method check. -/
theorem finish_request_ok_shape (httpFields : List (String × Val))
    (hostname method : String) (body : Option Val)
    (headers : Option (List (String × String)))
    (query_params path_params : List (String × Val)) (req : HttpRequestOut)
    (h : finish_request httpFields hostname method body headers query_params path_params
        = .ok req) :
    req.method = py_upper method ∧ req.body = body ∧ req.headers = headers := by
  simp only [finish_request] at h
  split at h
  · split at h
    · injection h with h2
      subst h2
      exact ⟨rfl, rfl, rfl⟩
    · simp at h
  · simp at h
  · simp at h

/-- Every error of a dict indexing is context-free. -/
theorem valIndex_error_ctx (v : Val) (key : String) (e : Err)
    (h : valIndex v key = .error e) : ctxFree e := by
  unfold valIndex at h
  repeat' split at h
  all_goals first
    | exact Except.noConfusion h
    | (injection h with h2
       subst h2
       exact ⟨rfl, rfl, fun m hm => by simp at hm, fun sv cm hm => by simp at hm⟩)

/-- Every error of one configuration-traversal step is context-free. -/
theorem conf_step_error_ctx (next : Val) (entry : ChainElem) (e : Err)
    (h : conf_step next entry = .error e) : ctxFree e := by
  unfold conf_step at h
  repeat' split at h
  all_goals first
    | exact Except.noConfusion h
    | exact valIndex_error_ctx _ _ _ h
    | (injection h with h2
       subst h2
       exact valIndex_error_ctx _ _ _ (by assumption))

/-- Every error of the configuration traversal loop is context-free. -/
theorem get_command_conf_go_error_ctx :
    ∀ (chain : List ChainElem) (next : Val) (e : Err),
    get_command_conf_go next chain = .error e → ctxFree e := by
  intro chain
  induction chain with
  | nil =>
    intro next e h
    simp [get_command_conf_go] at h
  | cons entry rest ih =>
    intro next e h
    simp only [get_command_conf_go] at h
    split at h
    · injection h with h2
      subst h2
      exact conf_step_error_ctx _ _ _ (by assumption)
    · exact ih _ _ h

/-- Every error of `get_command_conf` is context-free: missing keys along
the traversal surface as bare lookup failures. -/
theorem get_command_conf_error_ctx (story : Story) (chain : List ChainElem)
    (e : Err) (h : get_command_conf story chain = .error e) : ctxFree e := by
  unfold get_command_conf at h
  cases hg : get_command_conf_go (.obj story.app.services) chain with
  | error e2 =>
    rw [hg] at h
    have h2 : e2 = e := by simpa [Except.map] using h
    subst h2
    exact get_command_conf_go_error_ctx _ _ _ hg
  | ok v =>
    rw [hg] at h
    simp [Except.map] at h

/-- Context bookkeeping for a context-free error. -/
theorem ctxFree_cases (line : Line) (e : Err) (hc : ctxFree e) :
    (∀ a, e.kind = ErrKind.invalidLocation a → e.storyPassed = false ∧ e.line = none) ∧
    (∀ m, e.kind = ErrKind.bodyNonPost m → e.storyPassed = true ∧ e.line = some line) :=
  ⟨fun _ _ => ⟨hc.1, hc.2.1⟩, fun m hm => absurd hm (hc.2.2.1 m)⟩

/-- Of all the errors the request builder can raise, exactly the
body-bearing-non-POST one carries `(story, line)`; in particular the
unknown-argument-location error carries neither. -/
theorem execute_http_request_error_ctx (story : Story) (line : Line)
    (chain : List ChainElem) (hostname : String) (conf : Val) (e : Err)
    (h : execute_http_request story line chain hostname conf = .error e) :
    (∀ a, e.kind = ErrKind.invalidLocation a → e.storyPassed = false ∧ e.line = none) ∧
    (∀ m, e.kind = ErrKind.bodyNonPost m → e.storyPassed = true ∧ e.line = some line) := by
  unfold execute_http_request at h
  repeat' split at h
  all_goals first
    | exact Except.noConfusion h
    | exact ctxFree_cases line e (finish_request_error_ctx _ _ _ _ _ _ _ _ h)
    | (injection h with h2
       subst h2
       first
         | exact ctxFree_cases line _ (build_bags_error_ctx _ _ _ _ _ _ (by assumption))
         | exact ctxFree_cases line _ (arg_fields_of_error_ctx _ _ (by assumption))
         | (constructor <;> intro x hx <;> simp_all))

/-- The streaming-service handle of the subscription test. -/
def whenService : StreamingService := ⟨"http", "time-server", "asyncy--foo-1", "foo.com"⟩

/-- The `when http updates` line of the subscription test. -/
def whenLine : Line := { service := "http", command := "updates", method := "when", ln := "10" }

/-- The `updates` event configuration of the subscription test. -/
def whenEventConf : Val := .obj
  [("http", .obj [("port", .num 2000),
     ("subscribe", .obj [("method", .str "post"), ("path", .str "/sub")])]),
   ("arguments", .obj [("foo", .obj [("required", .bool true)])])]

/-- The service configuration dict of the subscription test. -/
def whenServicesConf : List (String × Val) :=
  [("http", .obj [("configuration", .obj [("actions", .obj
     [("time-server", .obj [("events", .obj [("updates", whenEventConf)])])])])])]

/-- The application record of the subscription test. -/
def whenApp : App :=
  { services := whenServicesConf,
    config := { ENGINE_HOST := "localhost", ENGINE_PORT := 8000,
                ASYNCY_SYNAPSE_HOST := "localhost", ASYNCY_SYNAPSE_PORT := 9000 },
    app_id := "my_fav_app", app_dns := "my_apps_hostname" }

/-- The story of the subscription test. -/
def whenStory : Story :=
  { tree := [], name := "my_event_driven_story.story", app := whenApp,
    argument_by_name := fun _ _ => .str "bar" }

/-- The subscription body the subscription test expects. -/
def whenBody : Val := .obj
  [("sub_id", .str "my_guid_here"),
   ("sub_url", .str "http://foo.com:2000/sub"),
   ("sub_method", .str "POST"),
   ("sub_body", .obj
     [("endpoint", .str
        "http://localhost:8000/story/event?story=my_event_driven_story.story&block=10&app=my_fav_app"),
      ("data", .obj [("foo", .str "bar"), ("host", .str "my_apps_hostname")]),
      ("event", .str "updates"),
      ("id", .str "my_guid_here")]),
   ("pod_name", .str "asyncy--foo-1"),
   ("app_id", .str "my_fav_app")]

/-- A registry holding the internal `(my_service, my_command)` of the
internal-dispatch test. -/
def myRegistry : Registry := [("my_service", ⟨[("my_command", ⟨[]⟩)]⟩)]

/-- The line invoking the internal command. -/
def myLine : Line := { service := "my_service", command := "my_command", method := "execute" }

/-- A story with no services configured, as in the internal-dispatch test. -/
def myStory : Story :=
  { tree := [], app := { services := [] }, argument_by_name := fun _ _ => .null }

/-! Claim theorems. -/

/-- C1 (counterexample): chain resolution succeeds on the test story's
`when` line (line 2), yet the resulting chain's last element is the `Event`
of the `when` command, not a `Command`; so for a line with `method = when`
the returned chain does not have a `Command` element at the last index. -/
theorem c1_counterexample :
    resolve_chain emptyRegistry chainStory 10 tLine2 =
      .ok [.Service "alpine", .Command "echo", .Event "foo"] ∧
    ([ChainElem.Service "alpine", .Command "echo", .Event "foo"].getLastD
        (.Service "")).isCommand = false :=
  ⟨rfl, rfl⟩

/-- C1 (amended): for every story and line on which chain resolution
succeeds, the chain has a `Service` element at index 0; its last element is
`Command(line.command)` whenever the line's method is not `when`, and is
`Event(line.command)` when the method is `when`. -/
theorem c1_amended_chain_shape (reg : Registry) (story : Story) (fuel : Nat)
    (line : Line) (chain : List ChainElem)
    (h : resolve_chain reg story fuel line = .ok chain) :
    (∃ s rest, chain = .Service s :: rest) ∧
    chain.getLast? = some (chain_elem_of line) ∧
    ((line.method == "when") = false → chain.getLast? = some (.Command line.command)) ∧
    ((line.method == "when") = true → chain.getLast? = some (.Event line.command)) := by
  obtain ⟨s, mid, hc, hlast⟩ := resolve_chain_shape reg story fuel line chain h
  refine ⟨⟨s, mid, hc⟩, hlast, ?_, ?_⟩
  · intro hw
    rw [hlast]
    simp [chain_elem_of, hw]
  · intro hw
    rw [hlast]
    simp [chain_elem_of, hw]

/-- Witness for the amended C1, at the test story's line 5. -/
theorem c1_witness :
    (∃ s rest, [ChainElem.Service "alpine", ChainElem.Command "echo",
        ChainElem.Event "foo", ChainElem.Command "sonar"] = ChainElem.Service s :: rest) ∧
    [ChainElem.Service "alpine", ChainElem.Command "echo", ChainElem.Event "foo",
        ChainElem.Command "sonar"].getLast? = some (chain_elem_of tLine5) ∧
    ((tLine5.method == "when") = false →
      [ChainElem.Service "alpine", ChainElem.Command "echo", ChainElem.Event "foo",
        ChainElem.Command "sonar"].getLast? = some (.Command tLine5.command)) ∧
    ((tLine5.method == "when") = true →
      [ChainElem.Service "alpine", ChainElem.Command "echo", ChainElem.Event "foo",
        ChainElem.Command "sonar"].getLast? = some (.Event tLine5.command)) :=
  c1_amended_chain_shape emptyRegistry chainStory 10 tLine5
    [ChainElem.Service "alpine", ChainElem.Command "echo", ChainElem.Event "foo",
     ChainElem.Command "sonar"] rfl

/-- C2: the resolver prepends `Event`/`Command` per line, stops on a
concrete or internal service, and otherwise continues from the first
ancestor whose single output equals the current service (the general owner
property is the first conjunct); on the §8 scenario-2 story tree it
resolves line 5 to `[Service(alpine), Command(echo), Event(foo),
Command(sonar)]`, and lines 1–4 to the chains the unit tests expect. -/
theorem c2_resolve_chain :
    (∀ (story : Story) (service : String) (fuel : Nat) (l o : Line),
      get_owner story service fuel l = .ok o →
      (parent_walk story fuel l).find? (owns_output service) = some o) ∧
    resolve_chain emptyRegistry chainStory 10 tLine5 =
      .ok [.Service "alpine", .Command "echo", .Event "foo", .Command "sonar"] ∧
    resolve_chain emptyRegistry chainStory 10 tLine1 =
      .ok [.Service "alpine", .Command "echo"] ∧
    resolve_chain emptyRegistry chainStory 10 tLine2 =
      .ok [.Service "alpine", .Command "echo", .Event "foo"] ∧
    resolve_chain emptyRegistry chainStory 10 tLine3 =
      .ok [.Service "alpine", .Command "echo"] ∧
    resolve_chain emptyRegistry chainStory 10 tLine4 =
      .ok [.Service "alpine", .Command "echo", .Event "foo", .Command "sonar"] :=
  ⟨fun story service => get_owner_is_first_owner story service, rfl, rfl, rfl, rfl, rfl⟩

/-- Witness for C2's owner property at the concrete story: the owner of
line 5's `echo_helper` handle is line 2. -/
theorem c2_witness :
    (parent_walk chainStory 9 tLine5).find? (owns_output "echo_helper") = some tLine2 :=
  c2_resolve_chain.1 chainStory "echo_helper" 9 tLine5 tLine2 rfl

/-- C3: `execute` dispatches to the internal executor exactly when
`is_internal(chain[0].name, chain[-1].name)` holds for the resolved chain,
and to the external executor otherwise. -/
theorem c3_dispatch_internal_iff (reg : Registry) (story : Story) (fuel : Nat)
    (line : Line) (chain : List ChainElem)
    (h : resolve_chain reg story fuel line = .ok chain) :
    ∃ s lastE, chain.head? = some (.Service s) ∧ chain.getLast? = some lastE ∧
      (execute reg story fuel line = .ok .internal ↔
        is_internal reg s lastE.name = true) ∧
      (execute reg story fuel line = .ok .external ↔
        is_internal reg s lastE.name = false) := by
  obtain ⟨s, mid, hc, hlast⟩ := resolve_chain_shape reg story fuel line chain h
  subst hc
  refine ⟨s, chain_elem_of line, rfl, hlast, ?_, ?_⟩ <;>
    simp only [execute, h, hlast] <;>
    by_cases hi : is_internal reg s (chain_elem_of line).name = true
  · simp [hi]
  · rw [Bool.not_eq_true] at hi
    simp [hi]
  · simp [hi]
  · rw [Bool.not_eq_true] at hi
    simp [hi]

/-- Witness for C3, at an internally-registered `(my_service, my_command)`. -/
theorem c3_witness :
    ∃ s lastE,
      ([ChainElem.Service "my_service", ChainElem.Command "my_command"]).head? =
        some (.Service s) ∧
      ([ChainElem.Service "my_service", ChainElem.Command "my_command"]).getLast? =
        some lastE ∧
      (execute myRegistry myStory 10 myLine = .ok .internal ↔
        is_internal myRegistry s lastE.name = true) ∧
      (execute myRegistry myStory 10 myLine = .ok .external ↔
        is_internal myRegistry s lastE.name = false) :=
  c3_dispatch_internal_iff myRegistry myStory 10 myLine
    [ChainElem.Service "my_service", ChainElem.Command "my_command"] rfl

/-- C10: the internal executor fetches the handler by the line's literal
service and command fields: success requires `is_internal(line.service,
line.command)` and yields the handler call keyed by exactly those names;
and when dispatch resolved through a chain whose head names a different
service, the registry lookup necessarily fails. -/
theorem c10_internal_lookup_by_line (reg : Registry) (story : Story) (fuel : Nat)
    (line : Line) :
    (∀ hc : HandlerCall, execute_internal reg story line = .ok hc →
      is_internal reg line.service line.command = true ∧
      hc.service = line.service ∧ hc.command = line.command) ∧
    (∀ s rest, resolve_chain reg story fuel line = .ok (.Service s :: rest) →
      s ≠ line.service → ∃ e, execute_internal reg story line = .error e) := by
  constructor
  · intro hc h
    unfold execute_internal at h
    split at h
    · exact Except.noConfusion h
    · split at h
      · exact Except.noConfusion h
      · injection h with h2
        subst h2
        refine ⟨?_, rfl, rfl⟩
        simp_all [is_internal]
  · intro s rest h hne
    have hni := resolve_chain_head_ne_not_internal reg story fuel line s rest h hne
    cases hl : reg.lookup line.service with
    | none =>
      refine ⟨⟨.keyError line.service, false, none⟩, ?_⟩
      simp [execute_internal, hl]
    | some svc =>
      simp only [is_internal, hl] at hni
      cases hcl : svc.commands.lookup line.command with
      | none =>
        refine ⟨⟨.attributeError, false, none⟩, ?_⟩
        simp [execute_internal, hl, hcl]
      | some cmd =>
        rw [hcl] at hni
        simp at hni

/-- Witness for C10: on the test story's line 5 (`echo_helper sonar`, whose
chain resolves to the concrete `alpine`) the internal lookup fails. -/
theorem c10_witness :
    ∃ e, execute_internal emptyRegistry chainStory tLine5 = .error e :=
  (c10_internal_lookup_by_line emptyRegistry chainStory 10 tLine5).2 "alpine"
    [.Command "echo", .Event "foo", .Command "sonar"] rfl (by decide)

/-- C4: after successful resolution and configuration lookup,
`execute_external` always performs `start_container` first, then selects
the transport in order: a `format` section wins and goes to the container
manager's exec; otherwise an `http` section selects the in-line write when
`use_event_conn` is truthy and the HTTP request otherwise; otherwise the
fatal neither-section error (carrying story and line) is raised after the
container start. -/
theorem c4_external_transport_order (reg : Registry) (story : Story) (line : Line)
    (fuel : Nat) (chain : List ChainElem) (confFields : List (String × Val))
    (hchain : resolve_chain reg story fuel line = .ok chain)
    (hconf : get_command_conf story chain = .ok (.obj confFields)) :
    ((lookupNN confFields "format").isSome = true →
      execute_external reg story line fuel =
        ([.startContainer, .containersExec line.service line.command], none)) ∧
    (∀ httpFields, lookupNN confFields "format" = none →
      lookupNN confFields "http" = some (.obj httpFields) →
      (((lookupVal httpFields "use_event_conn").getD (.bool false)).truthy = true →
        execute_external reg story line fuel =
          ([.startContainer, .executeInline], none)) ∧
      (((lookupVal httpFields "use_event_conn").getD (.bool false)).truthy = false →
        execute_external reg story line fuel =
          ([.startContainer, .executeHttp], none))) ∧
    (lookupNN confFields "format" = none → lookupNN confFields "http" = none →
      execute_external reg story line fuel =
        ([.startContainer],
         some ⟨.neitherFormatNorHttp line.service line.command, true, some line⟩)) := by
  refine ⟨?_, ?_, ?_⟩
  · intro hfmt
    simp [execute_external, hchain, hconf, hfmt]
  · intro httpFields hfmt hhttp
    constructor
    · intro htru
      simp [execute_external, hchain, hconf, hfmt, hhttp, htru]
    · intro htru
      simp [execute_external, hchain, hconf, hfmt, hhttp, htru]
  · intro hfmt hhttp
    simp [execute_external, hchain, hconf, hfmt, hhttp]

/-- Witness for C4 on the exec-transport test configuration
(`cups/print` declaring only `format`). -/
theorem c4_witness :
    execute_external emptyRegistry cupsStory cupsLine 10 =
      ([.startContainer, .containersExec "cups" "print"], none) :=
  (c4_external_transport_order emptyRegistry cupsStory cupsLine 10
      [ChainElem.Service "cups", ChainElem.Command "print"]
      [("format", .obj [])] rfl rfl).1 rfl

/-- C5: every declared argument of `execute_http` is routed to exactly one
of the three bags by its `in` descriptor, which defaults to `requestBody`
when absent; an unknown location is fatal for the whole build; and a built
request's body is exactly the JSON object of the `requestBody` bag (or
absent), so query/path arguments never reach the HTTP body and
`requestBody` arguments never reach the query and path parameters that
form the URL. -/
theorem c5_argument_partition (resolve : String → Val)
    (l : List (String × Val)) (arg : String) (c : Val)
    (hnd : (l.map Prod.fst).Nodup) (hmem : (arg, c) ∈ l) :
    (∀ fs, c = .obj fs → lookupVal fs "in" = none → loc_tag c = some "requestBody") ∧
    (∀ B Q P, build_bags resolve l [] [] [] = .ok (B, Q, P) →
      ((loc_tag c = some "requestBody" →
          arg ∈ B.map Prod.fst ∧ arg ∉ Q.map Prod.fst ∧ arg ∉ P.map Prod.fst) ∧
       (loc_tag c = some "query" →
          arg ∈ Q.map Prod.fst ∧ arg ∉ B.map Prod.fst ∧ arg ∉ P.map Prod.fst) ∧
       (loc_tag c = some "path" →
          arg ∈ P.map Prod.fst ∧ arg ∉ B.map Prod.fst ∧ arg ∉ Q.map Prod.fst))) ∧
    (loc_tag c = none → ∀ B Q P, build_bags resolve l [] [] [] ≠ .ok (B, Q, P)) ∧
    (∀ story line chain hostname confFields B Q P req,
      story.argument_by_name line = resolve →
      lookupVal confFields "arguments" = some (.obj l) →
      build_bags resolve l [] [] [] = .ok (B, Q, P) →
      execute_http_request story line chain hostname (.obj confFields) = .ok req →
      req.body = none ∨ req.body = some (.obj B)) := by
  have key : ∀ t, arg ∈ (bag_of resolve t l).map Prod.fst ↔
      ∃ c2, (arg, c2) ∈ l ∧ loc_tag c2 = some t :=
    fun t => mem_bag_keys resolve t l arg
  have uniq : ∀ c2, (arg, c2) ∈ l → c = c2 := fun c2 hm2 => nodup_keys_eq hnd hmem hm2
  have hpos : ∀ t, loc_tag c = some t → arg ∈ (bag_of resolve t l).map Prod.fst :=
    fun t ht => (key t).mpr ⟨c, hmem, ht⟩
  have hneg : ∀ t t2, loc_tag c = some t → t ≠ t2 →
      arg ∉ (bag_of resolve t2 l).map Prod.fst := by
    intro t t2 ht hne hx
    obtain ⟨c2, hm2, hl2⟩ := (key t2).mp hx
    rw [← uniq c2 hm2] at hl2
    rw [ht] at hl2
    injection hl2 with h3
    exact hne h3
  refine ⟨?_, ?_, ?_, ?_⟩
  · intro fs hc hin
    subst hc
    simp [loc_tag, hin, Val.isStr]
  · intro B Q P hok
    obtain ⟨hall, hB, hQ, hP⟩ := (build_bags_ok_iff resolve l [] [] [] B Q P).mp hok
    simp only [List.nil_append] at hB hQ hP
    subst hB
    subst hQ
    subst hP
    refine ⟨fun ht => ⟨hpos _ ht, ?_, ?_⟩, fun ht => ⟨hpos _ ht, ?_, ?_⟩,
            fun ht => ⟨hpos _ ht, ?_, ?_⟩⟩
    · exact hneg _ _ ht (by decide)
    · exact hneg _ _ ht (by decide)
    · exact hneg _ _ ht (by decide)
    · exact hneg _ _ ht (by decide)
    · exact hneg _ _ ht (by decide)
    · exact hneg _ _ ht (by decide)
  · intro hnone B Q P hok
    have hall := ((build_bags_ok_iff resolve l [] [] [] B Q P).mp hok).1 (arg, c) hmem
    rw [hnone] at hall
    simp at hall
  · intro story line chain hostname confFields B Q P req hres hargs hok hreq
    simp only [execute_http_request, hargs, arg_fields_of, hres, hok] at hreq
    repeat' split at hreq
    all_goals first
      | exact Except.noConfusion hreq
      | exact Or.inr (finish_request_ok_shape _ _ _ _ _ _ _ _ hreq).2.1
      | exact Or.inl (finish_request_ok_shape _ _ _ _ _ _ _ _ hreq).2.1

/-- Witness for C5 on the query-argument test configuration: `foo` lands
in the query bag and in neither the body nor the path bag. -/
theorem c5_witness :
    "foo" ∈ ([("foo", Val.str "bar")] : List (String × Val)).map Prod.fst ∧
    "foo" ∉ (([] : List (String × Val)).map Prod.fst) ∧
    "foo" ∉ (([] : List (String × Val)).map Prod.fst) :=
  ((c5_argument_partition (fun _ => Val.str "bar")
      [("foo", Val.obj [("in", Val.str "query")])] "foo"
      (Val.obj [("in", Val.str "query")]) (by simp) (by simp)).2.1
    [] [("foo", Val.str "bar")] [] rfl).2.1 rfl

/-- C6: in `execute_http` the method defaults to `post` and is uppercased
into the request; a `POST` carries the JSON-encoded body bag with the
`application/json; charset=utf-8` content type; a non-`POST` with a
non-empty body bag fails before any request exists, with the
parameters-found-in-request-body error carrying `(story, line)`; and a
non-`POST` with an empty body bag yields a request with no body and no
headers at all. -/
theorem c6_method_body_headers (story : Story) (line : Line) (chain : List ChainElem)
    (hostname s : String) (confFields argFields httpFields b q p : List (String × Val))
    (hhead : chain.head? = some (.Service s))
    (hargs : lookupVal confFields "arguments" = some (.obj argFields))
    (hbags : build_bags (story.argument_by_name line) argFields [] [] [] = .ok (b, q, p))
    (hhttp : lookupVal confFields "http" = some (.obj httpFields)) :
    (lookupVal httpFields "method" = none →
      (lookupVal httpFields "method").getD (.str "post") = .str "post") ∧
    (∀ m req, (lookupVal httpFields "method").getD (.str "post") = .str m →
      execute_http_request story line chain hostname (.obj confFields) = .ok req →
      req.method = py_upper m) ∧
    (∀ m, (lookupVal httpFields "method").getD (.str "post") = .str m →
      py_lower m = "post" →
      ∀ req, execute_http_request story line chain hostname (.obj confFields) = .ok req →
        req.body = some (.obj b) ∧
        req.headers = some [("Content-Type", "application/json; charset=utf-8")]) ∧
    (∀ m, (lookupVal httpFields "method").getD (.str "post") = .str m →
      py_lower m ≠ "post" → b ≠ [] →
      execute_http_request story line chain hostname (.obj confFields) =
        .error ⟨.bodyNonPost m, true, some line⟩) ∧
    (∀ m, (lookupVal httpFields "method").getD (.str "post") = .str m →
      py_lower m ≠ "post" → b = [] →
      ∀ req, execute_http_request story line chain hostname (.obj confFields) = .ok req →
        req.body = none ∧ req.headers = none) := by
  refine ⟨?_, ?_, ?_, ?_, ?_⟩
  · intro h
    rw [h]
    rfl
  · intro m req hm hreq
    simp only [execute_http_request, hhead, hargs, arg_fields_of, hbags, hhttp, hm] at hreq
    split at hreq
    · exact (finish_request_ok_shape _ _ _ _ _ _ _ _ hreq).1
    · split at hreq
      · exact Except.noConfusion hreq
      · exact (finish_request_ok_shape _ _ _ _ _ _ _ _ hreq).1
  · intro m hm hpost req hreq
    simp only [execute_http_request, hhead, hargs, arg_fields_of, hbags, hhttp, hm] at hreq
    rw [if_pos hpost] at hreq
    exact ⟨(finish_request_ok_shape _ _ _ _ _ _ _ _ hreq).2.1,
           (finish_request_ok_shape _ _ _ _ _ _ _ _ hreq).2.2⟩
  · intro m hm hpost hb
    simp only [execute_http_request, hhead, hargs, arg_fields_of, hbags, hhttp, hm]
    rw [if_neg hpost, if_pos (List.length_pos.mpr hb)]
  · intro m hm hpost hb req hreq
    simp only [execute_http_request, hhead, hargs, arg_fields_of, hbags, hhttp, hm] at hreq
    rw [if_neg hpost] at hreq
    subst hb
    simp only [List.length_nil, gt_iff_lt, lt_self_iff_false, if_false] at hreq
    exact ⟨(finish_request_ok_shape _ _ _ _ _ _ _ _ hreq).2.1,
           (finish_request_ok_shape _ _ _ _ _ _ _ _ hreq).2.2⟩

/-- Witness for C6 on the body-bearing-GET test configuration: the request
fails before any HTTP request with the body-on-GET error carrying the
story's line. -/
theorem c6_witness :
    execute_http_request barStory httpLine httpChain "container_host"
      (httpConf "get" "/invoke" "requestBody") =
      .error ⟨.bodyNonPost "get", true, some httpLine⟩ :=
  (c6_method_body_headers barStory httpLine httpChain "container_host" "service"
      [("http", .obj [("method", .str "get"), ("port", .num 2771), ("path", .str "/invoke")]),
       ("arguments", .obj [("foo", .obj [("in", .str "requestBody")])])]
      [("foo", .obj [("in", .str "requestBody")])]
      [("method", .str "get"), ("port", .num 2771), ("path", .str "/invoke")]
      [("foo", .str "bar")] [] []
      rfl rfl rfl rfl).2.2.2.1 "get" rfl (by decide) (by simp)

/-- C7: a response with status in `[200, 299]` returns the parsed JSON when
the `Content-Type` contains `application/json` and the raw body otherwise;
any status outside that range raises the fatal invocation error and
returns nothing. -/
theorem c7_response_classification (line : Line) (response : HttpResponse) :
    (200 ≤ response.code → response.code ≤ 299 →
      content_type_is_json response.contentType = true →
      handle_http_response line response = .ok (.parsedJson response.body)) ∧
    (200 ≤ response.code → response.code ≤ 299 →
      content_type_is_json response.contentType = false →
      handle_http_response line response = .ok (.rawBody response.body)) ∧
    (¬(200 ≤ response.code ∧ response.code ≤ 299) →
      handle_http_response line response = .error ⟨.invokeFailed, true, some line⟩) := by
  have h2xx : 200 ≤ response.code → response.code ≤ 299 →
      (response.code / 100 == 2) = true := by
    intro hc hc2
    rw [beq_iff_eq]
    omega
  have hnot : ¬(200 ≤ response.code ∧ response.code ≤ 299) →
      ¬((response.code / 100 == 2) = true) := by
    intro hn hc
    rw [beq_iff_eq] at hc
    exact hn (by omega)
  refine ⟨?_, ?_, ?_⟩
  · intro hc hc2 hct
    unfold handle_http_response
    rw [if_pos (h2xx hc hc2), if_pos hct]
  · intro hc hc2 hct
    unfold handle_http_response
    rw [if_pos (h2xx hc hc2), if_neg (by simp [hct])]
  · intro hn
    unfold handle_http_response
    rw [if_neg (hnot hn)]

/-- Witness for C7: a 200 JSON response is parsed. -/
theorem c7_witness :
    handle_http_response httpLine ⟨200, some "application/json", "payload", ""⟩ =
      .ok (.parsedJson "payload") :=
  (c7_response_classification httpLine ⟨200, some "application/json", "payload", ""⟩).1
    (by decide) (by decide) (by decide)

/-- C8: once the subscription request is built, the subscription (fresh id,
streaming service, the line's command, composed body) is added exactly when
the broker answers 2xx; any other status raises the fatal subscription
error carrying the response's error text and status code, and adds
nothing. -/
theorem c8_subscription_iff_2xx (s : StreamingService) (story : Story) (line : Line)
    (sub_id url : String) (body : Val) (response : HttpResponse)
    (hbuild : when_build s story line sub_id = .ok (url, body)) :
    (when s story line sub_id response = .ok ⟨sub_id, s, line.command, body⟩ ↔
      response.code / 100 = 2) ∧
    (response.code / 100 ≠ 2 →
      when s story line sub_id response =
        .error ⟨.subscribeFailed response.errText response.code, true, some line⟩) := by
  simp only [when, hbuild]
  unfold when_response
  constructor
  · by_cases hc : (response.code / 100 == 2) = true
    · rw [if_pos hc]
      rw [beq_iff_eq] at hc
      simp [hc]
    · rw [if_neg hc]
      have hne : ¬(response.code / 100 = 2) := by simpa [beq_iff_eq] using hc
      simp [hne]
  · intro hn
    rw [if_neg (by simpa [beq_iff_eq] using hn)]

/-- Witness for C8 on the subscription test fixture: a 204 broker response
adds the expected subscription. -/
theorem c8_witness :
    when whenService whenStory whenLine "my_guid_here" ⟨204, none, "", ""⟩ =
      .ok ⟨"my_guid_here", whenService, "updates", whenBody⟩ :=
  (c8_subscription_iff_2xx whenService whenStory whenLine "my_guid_here"
      "http://localhost:9000/subscribe" whenBody ⟨204, none, "", ""⟩ rfl).1.mpr rfl

/-- C9 (counterexample): the unknown-argument-location error of
`execute_http` is raised with neither the story pointer nor the failing
line attached. -/
theorem c9_counterexample :
    execute_http_request barStory httpLine httpChain "container_host"
      (httpConf "get" "/invoke" "invalid_loc") =
      .error ⟨.invalidLocation "foo", false, none⟩ := rfl

/-- C9 (amended): dispatch-core errors raised through `AsyncyError` with
explicit story/line keywords — the neither-format-nor-http configuration
error, the body-bearing non-POST error, the failed-invocation error and
the failed-subscription error — carry `(story, line)`; but the
unknown-argument-location configuration error and every chain-resolution
failure (bare assertions and lookups) carry neither. -/
theorem c9_amended_error_context :
    (∀ (reg : Registry) (story : Story) (fuel : Nat) (line : Line) (e : Err),
      resolve_chain reg story fuel line = .error e →
      e.storyPassed = false ∧ e.line = none) ∧
    (∀ (story : Story) (line : Line) (chain : List ChainElem) (hostname : String)
        (conf : Val) (e : Err) (a : String),
      execute_http_request story line chain hostname conf = .error e →
      e.kind = .invalidLocation a → e.storyPassed = false ∧ e.line = none) ∧
    (∀ (story : Story) (line : Line) (chain : List ChainElem) (hostname : String)
        (conf : Val) (e : Err) (m : String),
      execute_http_request story line chain hostname conf = .error e →
      e.kind = .bodyNonPost m → e.storyPassed = true ∧ e.line = some line) ∧
    (∀ (line : Line) (response : HttpResponse) (e : Err),
      handle_http_response line response = .error e →
      e = ⟨.invokeFailed, true, some line⟩) ∧
    (∀ (s : StreamingService) (line : Line) (sub_id : String) (body : Val)
        (response : HttpResponse) (e : Err),
      when_response s line sub_id body response = .error e →
      e = ⟨.subscribeFailed response.errText response.code, true, some line⟩) ∧
    (∀ (reg : Registry) (story : Story) (line : Line) (fuel : Nat)
        (trace : List ExtAction) (e : Err) (sv cm : String),
      execute_external reg story line fuel = (trace, some e) →
      e.kind = .neitherFormatNorHttp sv cm →
      e.storyPassed = true ∧ e.line = some line) := by
  refine ⟨?_, ?_, ?_, ?_, ?_, ?_⟩
  · intro reg story fuel line e h
    have hc := resolve_chain_error_ctx reg story fuel line e h
    exact ⟨hc.1, hc.2.1⟩
  · intro story line chain hostname conf e a h hk
    exact (execute_http_request_error_ctx story line chain hostname conf e h).1 a hk
  · intro story line chain hostname conf e m h hk
    exact (execute_http_request_error_ctx story line chain hostname conf e h).2 m hk
  · intro line response e h
    unfold handle_http_response at h
    split at h
    · split at h <;> exact Except.noConfusion h
    · injection h with h2
      exact h2.symm
  · intro s line sub_id body response e h
    unfold when_response at h
    split at h
    · exact Except.noConfusion h
    · injection h with h2
      exact h2.symm
  · intro reg story line fuel trace e sv cm h hk
    unfold execute_external at h
    repeat' split at h
    all_goals (
      injection h with h1 h2
      first
        | exact Option.noConfusion h2
        | (injection h2 with h3
           subst h3
           first
             | exact absurd hk
                 ((resolve_chain_error_ctx _ _ _ _ _ (by assumption)).2.2.2 sv cm)
             | exact absurd hk
                 ((get_command_conf_error_ctx _ _ _ (by assumption)).2.2.2 sv cm)
             | exact ⟨rfl, rfl⟩
             | simp at hk))

/-- Witness for the amended C9: a concrete chain-resolution failure (a line
with an unresolvable service and no parent) carries no story and no line. -/
theorem c9_witness :
    (⟨.assertionError, false, none⟩ : Err).storyPassed = false ∧
    (⟨.assertionError, false, none⟩ : Err).line = none :=
  c9_amended_error_context.1 emptyRegistry myStory 10
    { service := "ghost", command := "x", method := "execute" }
    ⟨.assertionError, false, none⟩ rfl

end Services

end Asyncy
